import Mathlib

/-
Verification of the block-streaming indexer pipeline described by this
repository. The repository ships an example configuration/transform script
(src/examples/mongo/starknet_to_mongo.js) and an observability compose file;
the pipeline runtime the configuration plugs into is specified in the
design document. Definitions below embed the example configuration from the
source file verbatim, and model the runtime components (checkpoint manager,
sink, orchestrator) from the specification, as the runtime code is not part
of the sources.
-/

namespace Dna

/-- Modelled from the spec: a SinkRecord is the transformed output unit
written to the sink; it carries provenance (blockHeight) so it can be
deleted during invalidation, plus the transfer-event payload fields. -/
structure SinkRecord where
  network : String
  symbol : String
  blockHeight : Nat
  txHash : String
  eventIndex : Nat
  fromAddress : String
  toAddress : String
  amount : Nat
deriving DecidableEq

/-- Modelled from the spec: a raw block entry carrying the contract address
and selector the filter inspects, plus the decoded transfer payload. -/
structure RawEvent where
  contractAddress : String
  selector : String
  network : String
  symbol : String
  fromAddress : String
  toAddress : String
  amount : Nat
  txHash : String
  eventIndex : Nat
deriving DecidableEq

/-- Modelled from the spec: a Block is identified by its height and hash and
contains an ordered sequence of events. -/
structure Block where
  height : Nat
  hash : String
  events : List RawEvent
deriving DecidableEq

/-- Modelled from the spec: a FilterSpec is a declarative predicate set on
contract address and selector, evaluated against raw block data. -/
structure FilterSpec where
  contractAddress : Option String
  selector : Option String
deriving DecidableEq

/-- Modelled from the spec: a Checkpoint is (network, lastAppliedHeight,
lastAppliedHash), the single mutable record per network scope. -/
structure Checkpoint where
  network : String
  lastAppliedHeight : Nat
  lastAppliedHash : String
deriving DecidableEq

/-- Modelled from the spec: an InvalidationScope (network, symbol) restricts
which previously written records are eligible for rollback deletion. -/
structure InvalidationScope where
  network : String
  symbol : String
deriving DecidableEq

/-- Sink options of the example configuration: database and collection. -/
structure SinkOptions where
  database : String
  collectionName : String
deriving DecidableEq

/-- Modelled from the spec: the validated pipeline configuration; every
field is present, except invalidate which stays optional (none means no
restriction on the invalidation scope). -/
structure Config where
  streamUrl : String
  startingBlock : Nat
  network : String
  filter : FilterSpec
  sinkType : String
  sinkOptions : SinkOptions
  invalidate : Option InvalidationScope
deriving DecidableEq

/-- Modelled from the spec: the raw configuration object as supplied by a
pipeline author, before startup validation; every field may be missing. -/
structure RawConfig where
  streamUrl : Option String
  startingBlock : Option Nat
  network : Option String
  filter : Option FilterSpec
  sinkType : Option String
  sinkOptions : Option SinkOptions
  invalidate : Option InvalidationScope
deriving DecidableEq

/-- Modelled from the spec: the transfer filter imported by the example from
src/examples/common/starknet.js, a file absent from the sources; only its
presence in the configuration matters for the claims below. -/
def filter : FilterSpec :=
  { contractAddress := none, selector := none }

/-- Embedded from src/examples/mongo/starknet_to_mongo.js: the exported
config object, field for field. -/
def config : RawConfig :=
  { streamUrl := some "https://goerli.starknet.a5a.ch"
    startingBlock := some 800000
    network := some "starknet"
    filter := some filter
    sinkType := some "mongo"
    sinkOptions := some { database := "example", collectionName := "transfers" }
    invalidate := some { network := "starknet-goerli", symbol := "ETH" } }

/-- The example configuration after validation: the same fields with the
Option layer removed. -/
def exampleConfig : Config :=
  { streamUrl := "https://goerli.starknet.a5a.ch"
    startingBlock := 800000
    network := "starknet"
    filter := filter
    sinkType := "mongo"
    sinkOptions := { database := "example", collectionName := "transfers" }
    invalidate := some { network := "starknet-goerli", symbol := "ETH" } }

/-- Modelled from the spec: startup validation of the raw configuration;
all fields are required except invalidate, which is passed through. -/
def validateConfig (rc : RawConfig) : Option Config :=
  rc.streamUrl.bind fun u =>
  rc.startingBlock.bind fun sb =>
  rc.network.bind fun n =>
  rc.filter.bind fun f =>
  rc.sinkType.bind fun st =>
  rc.sinkOptions.map fun so =>
  { streamUrl := u, startingBlock := sb, network := n, filter := f,
    sinkType := st, sinkOptions := so, invalidate := rc.invalidate }

/-- Modelled from the spec: whether a raw event matches the filter; absent
predicate components match everything. -/
def matchesFilter (fs : FilterSpec) (e : RawEvent) : Bool :=
  (match fs.contractAddress with
   | none => true
   | some a => a == e.contractAddress) &&
  (match fs.selector with
   | none => true
   | some sel => sel == e.selector)

/-- Modelled from the spec: the Filter Engine, a pure function dropping
unmatched entries from a raw block. -/
def applyFilter (fs : FilterSpec) (b : Block) : Block :=
  { b with events := b.events.filter (matchesFilter fs) }

/-- Modelled from the spec: decodeTransfersInBlock, the default transform of
src/examples/common/starknet.js (absent from the sources); it maps each
filtered event of a block to one sink record stamped with the block height. -/
def decodeTransfersInBlock (b : Block) : List SinkRecord :=
  b.events.map fun e =>
    { network := e.network, symbol := e.symbol, blockHeight := b.height,
      txHash := e.txHash, eventIndex := e.eventIndex,
      fromAddress := e.fromAddress, toAddress := e.toAddress,
      amount := e.amount }

/-- Modelled from the spec: the combined state the pipeline mutates, the
checkpoint record and the set of records persisted in the sink. -/
structure PipelineState where
  checkpoint : Option Checkpoint
  sink : Finset SinkRecord
deriving DecidableEq

/-- The state at first startup: no checkpoint, empty sink. -/
def initState : PipelineState :=
  { checkpoint := none, sink := ∅ }

/-- Height recorded in the checkpoint, 0 when no checkpoint exists. -/
def cpHeight (s : PipelineState) : Nat :=
  match s.checkpoint with
  | none => 0
  | some c => c.lastAppliedHeight

/-- Modelled from the spec: whether a record lies within the invalidation
scope; an absent scope restricts nothing. -/
def inScope (scope : Option InvalidationScope) (r : SinkRecord) : Bool :=
  match scope with
  | none => true
  | some sc => sc.network == r.network && sc.symbol == r.symbol

/-- Modelled from the spec: commit(network, height, hash, records)
atomically persists the records to the sink (idempotent upsert) and
advances the checkpoint; the ok flag stands for success of the atomic
write, so on failure nothing changes. -/
def commit (network : String) (height : Nat) (hash : String)
    (records : List SinkRecord) (ok : Bool) (s : PipelineState) :
    PipelineState :=
  if ok then
    { checkpoint := some { network := network, lastAppliedHeight := height,
                           lastAppliedHash := hash },
      sink := s.sink ∪ records.toFinset }
  else s

/-- Modelled from the spec: a record is eligible for rollback deletion at
height h when its blockHeight exceeds h and it lies within the scope. -/
def eligible (scope : Option InvalidationScope) (h : Nat) (r : SinkRecord) :
    Bool :=
  decide (h < r.blockHeight) && inScope scope r

/-- Modelled from the spec: rollbackTo(network, height) deletes every sink
record with blockHeight above the target within the invalidation scope and
reverts the checkpoint to the target height. -/
def rollbackTo (scope : Option InvalidationScope) (network : String)
    (h : Nat) (s : PipelineState) : PipelineState :=
  { checkpoint := some { network := network, lastAppliedHeight := h,
                         lastAppliedHash := "" },
    sink := s.sink.filter fun r => eligible scope h r = false }

/-- Modelled from the spec: a rollback interrupted by a failure after
deleting only a subset of the eligible records and before reverting the
checkpoint. -/
def incompleteRollback (deleted : Finset SinkRecord) (s : PipelineState) :
    PipelineState :=
  { checkpoint := s.checkpoint, sink := s.sink \ deleted }

/-- Modelled from the spec: the messages produced by the Source Connector. -/
inductive StreamMessage where
  | newBlock (b : Block)
  | invalidate (h : Nat)
deriving DecidableEq

/-- Modelled from the spec: one step of the Pipeline Orchestrator; a new
block runs Filter/Transform (the supplied tf) then commit, an invalidation
message triggers rollbackTo under the configured scope. -/
def processMessage (cfg : Config) (tf : Block → List SinkRecord)
    (m : StreamMessage) (ok : Bool) (s : PipelineState) : PipelineState :=
  match m with
  | .newBlock b => commit cfg.network b.height b.hash (tf b) ok s
  | .invalidate h => rollbackTo cfg.invalidate cfg.network h s

/-- Modelled from the spec: the orchestrator loop over a list of new blocks
whose commits all succeed. -/
def runBlocks (cfg : Config) (tf : Block → List SinkRecord) :
    List Block → PipelineState → PipelineState
  | [], s => s
  | b :: bs, s =>
      runBlocks cfg tf bs (processMessage cfg tf (.newBlock b) true s)

/-- Modelled from the spec: the orchestrator loop over new blocks paired
with the success flag of their commit. -/
def runPairs (cfg : Config) (tf : Block → List SinkRecord) :
    List (Block × Bool) → PipelineState → PipelineState
  | [], s => s
  | p :: ps, s =>
      runPairs cfg tf ps (processMessage cfg tf (.newBlock p.1) p.2 s)

/-- Heights of the blocks whose commit succeeded, in stream order. -/
def committedHeights : List (Block × Bool) → List Nat
  | [] => []
  | p :: ps =>
      if p.2 then p.1.height :: committedHeights ps else committedHeights ps

/-- All records the transform produces over a list of blocks. -/
def allRecords (tf : Block → List SinkRecord) :
    List Block → Finset SinkRecord
  | [] => ∅
  | b :: bs => (tf b).toFinset ∪ allRecords tf bs

/-- Modelled from the spec: the height the Source Connector starts from; a
present checkpoint resumes at its height plus one and overrides the
configured starting block. -/
def startupHeight (cfg : Config) (cp : Option Checkpoint) : Nat :=
  match cp with
  | none => cfg.startingBlock
  | some c => c.lastAppliedHeight + 1

/-- Sample stream used to exercise the orchestrator loop on concrete data:
three blocks in increasing height order whose middle commit fails. -/
def sampleRun : List (Block × Bool) :=
  [({ height := 800000, hash := "0xa", events := [] }, true),
   ({ height := 800001, hash := "0xb", events := [] }, false),
   ({ height := 800002, hash := "0xc", events := [] }, true)]

/-- Sample raw configuration missing its streamUrl field. -/
def badConfig : RawConfig :=
  { streamUrl := none
    startingBlock := some 800000
    network := some "starknet"
    filter := some filter
    sinkType := some "mongo"
    sinkOptions := some { database := "example", collectionName := "transfers" }
    invalidate := none }

/-- Sample record eligible for rollback deletion under the example scope at
height 800001. -/
def sampleRecord : SinkRecord :=
  { network := "starknet-goerli", symbol := "ETH", blockHeight := 800002,
    txHash := "0xt", eventIndex := 0, fromAddress := "0xa",
    toAddress := "0xb", amount := 1 }

/-- Sample state holding just the sample record with a checkpoint at its
height. -/
def sampleState : PipelineState :=
  { checkpoint := some { network := "starknet",
                         lastAppliedHeight := 800002,
                         lastAppliedHash := "0xc" },
    sink := {sampleRecord} }

/-- Claim C1: every invocation of commit is atomic; on failure the state is
unchanged, and otherwise either nothing changed or both the sink gained
exactly the records and the checkpoint advanced to (height, hash). -/
theorem commit_atomic (network : String) (height : Nat) (hash : String)
    (records : List SinkRecord) (ok : Bool) (s : PipelineState) :
    commit network height hash records false s = s ∧
    (commit network height hash records ok s = s ∨
      ((commit network height hash records ok s).checkpoint =
          some { network := network, lastAppliedHeight := height,
                 lastAppliedHash := hash } ∧
        (commit network height hash records ok s).sink =
          s.sink ∪ records.toFinset)) := by
  refine ⟨rfl, ?_⟩
  cases ok with
  | false => exact Or.inl rfl
  | true => exact Or.inr ⟨rfl, rfl⟩

/-- Claim C3: under the streaming discipline (blocks arrive at or above the
checkpoint height), no operation other than an invalidation rollback lowers
the checkpoint height: processing a new block, whether its commit succeeds
or fails, never decreases it. -/
theorem checkpoint_monotone (cfg : Config) (tf : Block → List SinkRecord)
    (b : Block) (ok : Bool) (s : PipelineState)
    (hr : cpHeight s ≤ b.height) :
    cpHeight s ≤ cpHeight (processMessage cfg tf (.newBlock b) ok s) := by
  cases ok with
  | false => exact le_rfl
  | true => simpa [processMessage, commit, cpHeight] using hr

/-- Witness for C3 at a concrete state and block. -/
theorem checkpoint_monotone_witness :
    cpHeight Dna.initState ≤ 800000 ∧
    cpHeight Dna.initState ≤
      cpHeight (processMessage exampleConfig decodeTransfersInBlock
        (.newBlock { height := 800000, hash := "0xabc", events := [] })
        true Dna.initState) :=
  ⟨by decide,
   checkpoint_monotone exampleConfig decodeTransfersInBlock
     { height := 800000, hash := "0xabc", events := [] } true Dna.initState
     (by decide)⟩

/-- Claim C5: startup with no checkpoint begins at the configured starting
block (800000 in the example configuration); a checkpoint at height k makes
startup resume at k + 1, overriding the configured starting block. -/
theorem startup_resume_height :
    startupHeight exampleConfig none = 800000 ∧
    (∀ cfg : Config, startupHeight cfg none = cfg.startingBlock) ∧
    (∀ (cfg : Config) (net : String) (k : Nat) (hs : String),
      startupHeight cfg
        (some { network := net, lastAppliedHeight := k,
                lastAppliedHash := hs }) = k + 1) :=
  ⟨rfl, fun _ => rfl, fun _ _ _ _ => rfl⟩

/-- Claim C6: processing Invalidate(h) keeps exactly the sink records that
are not (above h and inside the configured invalidation scope) — so records
outside the scope are untouched — reverts the checkpoint height to h, and
makes streaming resume at h + 1. -/
theorem invalidate_rollback (cfg : Config) (tf : Block → List SinkRecord)
    (h : Nat) (ok : Bool) (s : PipelineState) :
    (∀ r : SinkRecord,
      r ∈ (processMessage cfg tf (.invalidate h) ok s).sink ↔
        r ∈ s.sink ∧ ¬(h < r.blockHeight ∧ inScope cfg.invalidate r = true)) ∧
    cpHeight (processMessage cfg tf (.invalidate h) ok s) = h ∧
    startupHeight cfg
      (processMessage cfg tf (.invalidate h) ok s).checkpoint = h + 1 := by
  refine ⟨fun r => ?_, rfl, rfl⟩
  simp only [processMessage, rollbackTo, Finset.mem_filter, eligible,
    Bool.and_eq_false_iff, decide_eq_false_iff_not, not_lt,
    Bool.not_eq_true]
  constructor
  · rintro ⟨hmem, hel⟩
    refine ⟨hmem, ?_⟩
    rintro ⟨hlt, hsc⟩
    rcases hel with hle | hfalse
    · exact absurd hlt (not_lt.mpr hle)
    · rw [hsc] at hfalse
      exact Bool.noConfusion hfalse
  · rintro ⟨hmem, hne⟩
    refine ⟨hmem, ?_⟩
    by_cases hlt : h < r.blockHeight
    · right
      cases hsc : inScope cfg.invalidate r with
      | false => rfl
      | true => exact absurd ⟨hlt, hsc⟩ hne
    · exact Or.inl (not_lt.mp hlt)

/-- Claim C8: a block whose filtered event set is empty still advances the
checkpoint to the block height while writing zero sink records. -/
theorem empty_filtered_block (cfg : Config) (fs : FilterSpec) (b : Block)
    (s : PipelineState)
    (he : (applyFilter fs b).events = []) :
    (processMessage cfg (fun blk => decodeTransfersInBlock (applyFilter fs blk))
        (.newBlock b) true s).sink = s.sink ∧
    cpHeight (processMessage cfg
        (fun blk => decodeTransfersInBlock (applyFilter fs blk))
        (.newBlock b) true s) = b.height := by
  constructor
  · simp [processMessage, commit, decodeTransfersInBlock, he]
  · simp [processMessage, commit, cpHeight]

/-- Witness for C8: a block whose only event fails the contract-address
predicate writes nothing yet moves the checkpoint to 800000. -/
theorem empty_filtered_block_witness :
    (applyFilter { contractAddress := some "0x49d", selector := none }
        { height := 800000, hash := "0xh",
          events := [{ contractAddress := "0xother", selector := "Transfer",
                       network := "starknet", symbol := "ETH",
                       fromAddress := "0xa", toAddress := "0xb", amount := 5,
                       txHash := "0xt", eventIndex := 0 }] }).events = [] ∧
    ((processMessage exampleConfig
        (fun blk => decodeTransfersInBlock (applyFilter
          { contractAddress := some "0x49d", selector := none } blk))
        (.newBlock
          { height := 800000, hash := "0xh",
            events := [{ contractAddress := "0xother", selector := "Transfer",
                         network := "starknet", symbol := "ETH",
                         fromAddress := "0xa", toAddress := "0xb",
                         amount := 5, txHash := "0xt", eventIndex := 0 }] })
        true Dna.initState).sink = Dna.initState.sink ∧
      cpHeight (processMessage exampleConfig
        (fun blk => decodeTransfersInBlock (applyFilter
          { contractAddress := some "0x49d", selector := none } blk))
        (.newBlock
          { height := 800000, hash := "0xh",
            events := [{ contractAddress := "0xother", selector := "Transfer",
                         network := "starknet", symbol := "ETH",
                         fromAddress := "0xa", toAddress := "0xb",
                         amount := 5, txHash := "0xt", eventIndex := 0 }] })
        true Dna.initState) = 800000) :=
  ⟨by decide,
   empty_filtered_block exampleConfig
     { contractAddress := some "0x49d", selector := none }
     { height := 800000, hash := "0xh",
       events := [{ contractAddress := "0xother", selector := "Transfer",
                    network := "starknet", symbol := "ETH",
                    fromAddress := "0xa", toAddress := "0xb", amount := 5,
                    txHash := "0xt", eventIndex := 0 }] }
     Dna.initState (by decide)⟩

/-- Claim C10: in the exported example configuration the invalidation scope
names network "starknet-goerli" while the pipeline itself runs under
network "starknet"; the two labels differ, so a record carrying the
pipeline network and the scoped symbol is outside the invalidation scope. -/
theorem invalidate_scope_mismatch :
    Dna.config.network = some "starknet" ∧
    Dna.config.invalidate.map InvalidationScope.network =
      some "starknet-goerli" ∧
    Dna.config.invalidate.map InvalidationScope.network ≠
      Dna.config.network ∧
    inScope exampleConfig.invalidate
      { network := "starknet", symbol := "ETH", blockHeight := 800001,
        txHash := "0xt", eventIndex := 0, fromAddress := "0xa",
        toAddress := "0xb", amount := 1 } = false := by
  refine ⟨rfl, rfl, ?_, by decide⟩
  intro h
  have : ("starknet-goerli" : String) = "starknet" :=
    Option.some.inj h
  exact absurd this (by decide)

/-- The sink after a run of successful commits is the initial sink joined
with every record the transform produced. -/
theorem runBlocks_sink (cfg : Config) (tf : Block → List SinkRecord)
    (bs : List Block) (s : PipelineState) :
    (runBlocks cfg tf bs s).sink = s.sink ∪ allRecords tf bs := by
  induction bs generalizing s with
  | nil => simp [runBlocks, allRecords]
  | cons b bs ih =>
      rw [runBlocks, ih]
      simp [processMessage, commit, allRecords, Finset.union_assoc]

/-- Membership in the records of a block list means membership in the
transform output of one of its blocks. -/
theorem mem_allRecords (tf : Block → List SinkRecord) (bs : List Block)
    (r : SinkRecord) :
    r ∈ allRecords tf bs ↔ ∃ b ∈ bs, r ∈ tf b := by
  induction bs with
  | nil => simp [allRecords]
  | cons b bs ih => simp [allRecords, ih]

/-- An eligible record sits strictly above the rollback height. -/
theorem eligible_height (scope : Option InvalidationScope) (h : Nat)
    (r : SinkRecord) (he : eligible scope h r = true) :
    h < r.blockHeight := by
  simp only [eligible, Bool.and_eq_true, decide_eq_true_eq] at he
  exact he.1

/-- Claim C2: committing blocks, rolling back to h, then re-streaming the
blocks above h reproduces exactly the sink of the uninterrupted run,
provided the transform stamps each record with the height of its source
block (determinism holds by construction, tf being a function). -/
theorem rollback_restream_equiv (cfg : Config)
    (tf : Block → List SinkRecord) (bs : List Block) (h : Nat)
    (hprov : ∀ b ∈ bs, ∀ r ∈ tf b, r.blockHeight = b.height) :
    (runBlocks cfg tf (bs.filter fun b => decide (h < b.height))
        (rollbackTo cfg.invalidate cfg.network h
          (runBlocks cfg tf bs initState))).sink =
      (runBlocks cfg tf bs initState).sink := by
  ext r
  simp only [runBlocks_sink, rollbackTo, initState, Finset.empty_union,
    Finset.mem_union, Finset.mem_filter, mem_allRecords, List.mem_filter,
    decide_eq_true_eq]
  constructor
  · rintro (⟨hA, _⟩ | hF)
    · exact hA
    · obtain ⟨b, ⟨hb, _⟩, hr⟩ := hF
      exact ⟨b, hb, hr⟩
  · rintro ⟨b, hb, hr⟩
    by_cases hel : eligible cfg.invalidate h r = true
    · have hlt : h < r.blockHeight := eligible_height _ _ _ hel
      have hbh : r.blockHeight = b.height := hprov b hb r hr
      exact Or.inr ⟨b, ⟨hb, hbh ▸ hlt⟩, hr⟩
    · exact Or.inl ⟨⟨b, hb, hr⟩, Bool.eq_false_iff.mpr hel⟩

/-- Witness for C2 on a concrete three-block run rolled back to 800001. -/
theorem rollback_restream_equiv_witness :
    (∀ b ∈ (sampleRun.map Prod.fst), ∀ r ∈ decodeTransfersInBlock b,
      r.blockHeight = b.height) ∧
    (runBlocks exampleConfig decodeTransfersInBlock
        ((sampleRun.map Prod.fst).filter fun b => decide (800001 < b.height))
        (rollbackTo exampleConfig.invalidate exampleConfig.network 800001
          (runBlocks exampleConfig decodeTransfersInBlock
            (sampleRun.map Prod.fst) initState))).sink =
      (runBlocks exampleConfig decodeTransfersInBlock
        (sampleRun.map Prod.fst) initState).sink :=
  ⟨by decide,
   rollback_restream_equiv exampleConfig decodeTransfersInBlock
     (sampleRun.map Prod.fst) 800001 (by decide)⟩

/-- The checkpoint height after a run is the last committed height, or the
starting height when every commit failed. -/
theorem runPairs_cpHeight (cfg : Config) (tf : Block → List SinkRecord)
    (ps : List (Block × Bool)) (s : PipelineState) :
    cpHeight (runPairs cfg tf ps s) =
      (committedHeights ps).getLastD (cpHeight s) := by
  induction ps generalizing s with
  | nil => simp [runPairs, committedHeights]
  | cons p ps ih =>
      rcases p with ⟨b, ok⟩
      cases ok with
      | false => simp [runPairs, processMessage, commit, committedHeights, ih]
      | true =>
          rw [runPairs, ih]
          have h1 : cpHeight (processMessage cfg tf (.newBlock b) true s) =
              b.height := rfl
          have h2 : committedHeights ((b, true) :: ps) =
              b.height :: committedHeights ps := by
            rw [committedHeights, if_pos rfl]
          rw [h1, h2, List.getLastD_cons]

/-- The last entry of a strictly increasing list is its maximum. -/
theorem getLastD_eq_foldr_max (l : List Nat)
    (hl : List.Pairwise (fun a b => a < b) l) :
    l.getLastD 0 = l.foldr max 0 := by
  induction l with
  | nil => rfl
  | cons a t ih =>
      cases t with
      | nil => simp
      | cons b t2 =>
          have hp' : List.Pairwise (fun a b => a < b) (b :: t2) :=
            hl.of_cons
          have hab : a < b :=
            (List.pairwise_cons.mp hl).1 b (List.mem_cons_self b t2)
          have hM : b ≤ (b :: t2).foldr max 0 := by
            rw [List.foldr_cons]
            exact le_max_left b _
          have h1 : (a :: b :: t2).getLastD 0 = (b :: t2).getLastD 0 := by
            rw [List.getLastD_cons, List.getLastD_cons, List.getLastD_cons]
          have h2 : (a :: b :: t2).foldr max 0 = (b :: t2).foldr max 0 := by
            rw [List.foldr_cons]
            exact max_eq_right (le_trans (le_of_lt hab) hM)
          rw [h1, h2, ih hp']

/-- Every committed height is the height of some block of the stream. -/
theorem mem_committedHeights (ps : List (Block × Bool)) (x : Nat)
    (hx : x ∈ committedHeights ps) : ∃ p ∈ ps, p.1.height = x := by
  induction ps with
  | nil => simp [committedHeights] at hx
  | cons p ps ih =>
      cases hp : p.2 with
      | false =>
          rw [committedHeights, hp, if_neg Bool.false_ne_true] at hx
          obtain ⟨q, hq, hqx⟩ := ih hx
          exact ⟨q, List.mem_cons_of_mem p hq, hqx⟩
      | true =>
          rw [committedHeights, hp, if_pos rfl] at hx
          rcases List.mem_cons.mp hx with rfl | hx2
          · exact ⟨p, List.mem_cons_self p ps, rfl⟩
          · obtain ⟨q, hq, hqx⟩ := ih hx2
            exact ⟨q, List.mem_cons_of_mem p hq, hqx⟩

/-- A strictly increasing stream yields strictly increasing committed
heights. -/
theorem pairwise_committedHeights (ps : List (Block × Bool))
    (hp : List.Pairwise (fun p q : Block × Bool =>
      p.1.height < q.1.height) ps) :
    List.Pairwise (fun a b => a < b) (committedHeights ps) := by
  induction ps with
  | nil => simp [committedHeights]
  | cons p ps ih =>
      obtain ⟨hhead, htail⟩ := List.pairwise_cons.mp hp
      cases hq : p.2 with
      | false =>
          rw [committedHeights, hq, if_neg Bool.false_ne_true]
          exact ih htail
      | true =>
          rw [committedHeights, hq, if_pos rfl]
          refine List.pairwise_cons.mpr ⟨?_, ih htail⟩
          intro x hx
          obtain ⟨q, hqmem, hqx⟩ := mem_committedHeights ps x hx
          rw [← hqx]
          exact hhead q hqmem

/-- Claim C4: for a stream of new blocks with strictly increasing heights,
the final checkpoint height equals the highest height whose commit
succeeded (0, the height of the empty initial state, when none did). -/
theorem final_checkpoint_highest (cfg : Config)
    (tf : Block → List SinkRecord) (ps : List (Block × Bool))
    (hinc : List.Pairwise (fun p q : Block × Bool =>
      p.1.height < q.1.height) ps) :
    cpHeight (runPairs cfg tf ps initState) =
      (committedHeights ps).foldr max 0 := by
  rw [runPairs_cpHeight]
  have h0 : cpHeight initState = 0 := rfl
  rw [h0]
  exact getLastD_eq_foldr_max _ (pairwise_committedHeights ps hinc)

/-- Witness for C4 on the sample stream whose middle commit fails. -/
theorem final_checkpoint_highest_witness :
    List.Pairwise (fun p q : Block × Bool =>
      p.1.height < q.1.height) sampleRun ∧
    cpHeight (runPairs exampleConfig decodeTransfersInBlock sampleRun
        initState) =
      (committedHeights sampleRun).foldr max 0 :=
  ⟨by decide,
   final_checkpoint_highest exampleConfig decodeTransfersInBlock sampleRun
     (by decide)⟩

/-- Claim C7: rollbackTo is idempotent, both when re-applied after a
completed application and when re-applied after an incomplete one that
deleted only a subset of the eligible records. -/
theorem rollback_idem (scope : Option InvalidationScope) (net : String)
    (h : Nat) (d : Finset SinkRecord) (s : PipelineState)
    (hd : d ⊆ s.sink.filter fun r => eligible scope h r = true) :
    rollbackTo scope net h (rollbackTo scope net h s) =
      rollbackTo scope net h s ∧
    rollbackTo scope net h (incompleteRollback d s) =
      rollbackTo scope net h s := by
  constructor
  · simp only [rollbackTo, PipelineState.mk.injEq]
    refine ⟨trivial, ?_⟩
    ext r
    simp only [Finset.mem_filter]
    tauto
  · simp only [rollbackTo, incompleteRollback, PipelineState.mk.injEq]
    refine ⟨trivial, ?_⟩
    ext r
    simp only [Finset.mem_filter, Finset.mem_sdiff]
    constructor
    · rintro ⟨⟨hmem, _⟩, hel⟩
      exact ⟨hmem, hel⟩
    · rintro ⟨hmem, hel⟩
      refine ⟨⟨hmem, fun hdm => ?_⟩, hel⟩
      have htrue := (Finset.mem_filter.mp (hd hdm)).2
      rw [htrue] at hel
      exact Bool.noConfusion hel

/-- Witness for C7 at the sample state, with the incomplete rollback having
deleted the one eligible record. -/
theorem rollback_idem_witness :
    ({sampleRecord} : Finset SinkRecord) ⊆
      (sampleState.sink.filter fun r =>
        eligible exampleConfig.invalidate 800001 r = true) ∧
    (rollbackTo exampleConfig.invalidate "starknet" 800001
        (rollbackTo exampleConfig.invalidate "starknet" 800001 sampleState) =
      rollbackTo exampleConfig.invalidate "starknet" 800001 sampleState ∧
    rollbackTo exampleConfig.invalidate "starknet" 800001
        (incompleteRollback {sampleRecord} sampleState) =
      rollbackTo exampleConfig.invalidate "starknet" 800001 sampleState) :=
  ⟨by decide,
   rollback_idem exampleConfig.invalidate "starknet" 800001 {sampleRecord}
     sampleState (by decide)⟩

/-- Claim C9: validation rejects a raw configuration missing streamUrl,
network or sinkType; the example configuration is accepted; and an absent
invalidate field yields a validated configuration whose invalidation scope
restricts nothing. -/
theorem config_validation (rc : RawConfig)
    (hmiss : rc.streamUrl = none ∨ rc.network = none ∨
      rc.sinkType = none) :
    validateConfig rc = none ∧
    validateConfig Dna.config = some exampleConfig ∧
    (∀ (rc2 : RawConfig) (c : Config), validateConfig rc2 = some c →
      rc2.invalidate = none → ∀ r, inScope c.invalidate r = true) := by
  refine ⟨?_, rfl, ?_⟩
  · rcases hmiss with h1 | h1 | h1
    · simp [validateConfig, h1]
    · cases h2 : rc.streamUrl <;> cases h3 : rc.startingBlock <;>
        simp [validateConfig, h1, h2, h3]
    · cases h2 : rc.streamUrl <;> cases h3 : rc.startingBlock <;>
        cases h4 : rc.network <;> cases h5 : rc.filter <;>
        simp [validateConfig, h1, h2, h3, h4, h5]
  · intro rc2 c hv hi r
    rcases rc2 with ⟨su, sb, n, f, st, so, inv⟩
    cases su <;> cases sb <;> cases n <;> cases f <;> cases st <;>
      cases so <;> simp [validateConfig] at hv
    have hinv : inv = none := hi
    subst hinv
    rw [← hv]
    rfl

/-- Witness for C9 at the sample raw configuration missing streamUrl. -/
theorem config_validation_witness :
    (badConfig.streamUrl = none ∨ badConfig.network = none ∨
      badConfig.sinkType = none) ∧
    (validateConfig badConfig = none ∧
      validateConfig Dna.config = some exampleConfig ∧
      (∀ (rc2 : RawConfig) (c : Config), validateConfig rc2 = some c →
        rc2.invalidate = none → ∀ r, inScope c.invalidate r = true)) :=
  ⟨Or.inl rfl, config_validation badConfig (Or.inl rfl)⟩

end Dna
